import Mathlib

/-!
Verification of the DASH/Widevine playlist ripper (src/rip.py).

The development shallowly embeds the program: the pydantic data model becomes
Lean structures, the pipeline functions (urljoin, fetch_file, download_episode,
download_playlist) become pure Lean functions over an explicit filesystem
state, with the external collaborators (HTTP transport, manifest parsing,
ffmpeg, os.remove) abstracted as an environment of oracles.  Every run also
produces an event trace recording the observable side effects (network
requests, decrypt/mux invocations, directory creation, removal attempts), so
that ordering and idempotency statements can be made about actual executions.
-/

namespace Rip

/-- Content type enumeration (rip.py lines 18-20). -/
inductive ContentType where
  | video
  | audio
  deriving DecidableEq, Repr

/-- Source section of the playlist (rip.py lines 23-25). -/
structure Source where
  base : String
  mpd : String
  deriving DecidableEq, Repr

/-- Episode: an id and the key map (rip.py lines 28-30).  Python dicts are
insertion ordered with unique keys; they are embedded as association lists
looked up by first match. -/
structure Episode where
  id : String
  keys : List (String × String)
  deriving DecidableEq, Repr

/-- Chapter: a mapping of episode name to episode (rip.py lines 33-34). -/
structure Chapter where
  episodes : List (String × Episode)
  deriving DecidableEq, Repr

/-- Playlist: source plus chapters (rip.py lines 37-39). -/
structure Playlist where
  source : Source
  chapters : List (String × Chapter)
  deriving DecidableEq, Repr

/-- ContentProtection entry (rip.py lines 42-46). -/
structure ContentProtection where
  scheme_id_uri : String
  value : Option String
  cenc_kid : Option String
  cenc_pssh : Option String
  deriving DecidableEq, Repr

/-- Initialization range (rip.py lines 49-50). -/
structure Initialization where
  init_range : String
  deriving DecidableEq, Repr

/-- SegmentBase (rip.py lines 53-56). -/
structure SegmentBase where
  index_range : String
  timescale : Int
  init : Initialization
  deriving DecidableEq, Repr

/-- Representation (rip.py lines 59-64). -/
structure Representation where
  bandwidth : Int
  codecs : String
  mime_type : String
  base_url : String
  segments : SegmentBase
  deriving DecidableEq, Repr

/-- The parsed shape of the Representation field of an adaptation set
(rip.py lines 73-75): the pydantic union holds either a single
Representation (one element on the wire) or a list of them. -/
inductive RepOrList where
  | single (r : Representation)
  | list (rs : List Representation)
  deriving DecidableEq, Repr

/-- AdaptationSet (rip.py lines 67-75). -/
structure AdaptationSet where
  content_type : ContentType
  width : Option Int
  height : Option Int
  par : Option String
  protections : List ContentProtection
  representation : RepOrList
  deriving DecidableEq, Repr

/-- Period (rip.py lines 78-79). -/
structure Period where
  adaptation_set : List AdaptationSet
  deriving DecidableEq, Repr

/-- MPD metadata wrapper (rip.py lines 82-83). -/
structure MPDMeta where
  period : Period
  deriving DecidableEq, Repr

/-- Parsed MPD file (rip.py lines 86-87). -/
structure MPDFile where
  meta : MPDMeta
  deriving DecidableEq, Repr

/-- The one structural constraint pydantic validation imposes beyond field
typing: the Period must carry at least one adaptation set
(min_items 1, rip.py line 79). -/
def mpd_structurally_valid (m : MPDFile) : Bool :=
  1 ≤ m.meta.period.adaptation_set.length

/-- Python dict lookup on the association-list embedding of a dict. -/
def dict_get (m : List (String × String)) (k : String) : Option String :=
  match m with
  | [] => none
  | (k1, v) :: rest => if k1 = k then some v else dict_get rest k

/-- Removal of every trailing slash of a string, Python rstrip with a slash
argument (rip.py line 91). -/
def rstrip_slash (s : String) : String :=
  String.mk ((s.data.reverse.dropWhile (fun c => c = '/')).reverse)

/-- urljoin (rip.py lines 90-91): join the segments with slashes after
trimming trailing slashes from each. -/
def urljoin (args : List String) : String :=
  String.intercalate "/" (args.map rstrip_slash)

/-- POSIX os.path.join for two components, as called at rip.py lines 122-124:
an absolute second component replaces the first; otherwise a separator is
inserted unless the first component is empty or already ends in one. -/
def path_join (dir x : String) : String :=
  if x.data.head? = some '/' then x
  else if dir.data = [] ∨ dir.data.getLast? = some '/' then dir ++ x
  else (dir ++ "/") ++ x

/-- Combined output path of an episode (rip.py line 122). -/
def combined_path (dir name : String) : String :=
  path_join dir (name ++ ".mp4")

/-- Ephemeral encrypted video path of an episode (rip.py line 123). -/
def video_path (dir name : String) : String :=
  path_join dir (name ++ ".video.mp4")

/-- Ephemeral encrypted audio path of an episode (rip.py line 124). -/
def audio_path (dir name : String) : String :=
  path_join dir (name ++ ".audio.mp4")

/-- Key-id normalization (rip.py lines 146-147): a replace of the hyphen by
the empty string, i.e. dropping every hyphen character. -/
def normalize_kid (s : String) : String :=
  String.mk (s.data.filter (fun c => c ≠ '-'))

/-- Name sanitization (rip.py lines 176 and 180): a replace of the slash by a
dash, embedded as a character map since the pattern is a single character. -/
def sanitize (s : String) : String :=
  String.mk (s.data.map (fun c => if c = '/' then '-' else c))

/-- Error taxonomy of the pipeline.  AssertionError raised by the stream shape
asserts (rip.py lines 133-134) is streamSelectionError; AssertionError from
the key-id asserts (lines 144-145) is missingKeyId; KeyError from the key map
lookups (lines 148-149) is keyNotFound. -/
inductive RipError where
  | fetchError (url : String)
  | manifestInvalid
  | streamSelectionError
  | missingKeyId
  | keyNotFound (kid : String)
  | decryptMuxError
  deriving DecidableEq, Repr

/-- Observable side effects of a run. -/
inductive Event where
  | fetchMPD (url : String)
  | selectStreams
  | fetchFile (url : String)
  | resolveKeys (videoKid audioKid : String)
  | mux (out : String)
  | removeAttempt (path : String)
  | makeDir (dir : String)
  deriving DecidableEq, Repr

/-- Forgetting an event payload, keeping the step kind. -/
inductive EventKind where
  | mpdK
  | selectK
  | fetchK
  | resolveK
  | muxK
  | removeK
  | mkdirK
  deriving DecidableEq, Repr

def event_kind : Event → EventKind
  | .fetchMPD _ => .mpdK
  | .selectStreams => .selectK
  | .fetchFile _ => .fetchK
  | .resolveKeys _ _ => .resolveK
  | .mux _ => .muxK
  | .removeAttempt _ => .removeK
  | .makeDir _ => .mkdirK

/-- Events that hit the network or invoke the external decrypt/mux tool. -/
def is_io_event : Event → Bool
  | .fetchMPD _ => true
  | .fetchFile _ => true
  | .mux _ => true
  | _ => false

def isFetchFileEv : Event → Bool
  | .fetchFile _ => true
  | _ => false

def isResolveKeysEv : Event → Bool
  | .resolveKeys _ _ => true
  | _ => false

/-- Filesystem state: the set of existing file paths.  Content is irrelevant
to the program, which gates only on existence (rip.py lines 109, 126, 142). -/
structure FS where
  files : List String
  deriving DecidableEq, Repr

/-- Outcome of a pipeline stage: the filesystem afterwards, the events it
performed, and the exception it raised, if any.  A raised error leaves the
filesystem as it was at the raise point, as in Python. -/
structure Result where
  fs : FS
  trace : List Event
  err : Option RipError
  deriving DecidableEq, Repr

/-- External collaborators: manifest fetch plus parse (requests + xmltodict +
pydantic), segment fetch success, ffmpeg invocation success, os.remove
success. -/
structure Env where
  mpd : String → Except RipError MPDFile
  fetchOk : String → Bool
  mux : String → Bool
  removeOk : String → Bool

/-- fetch_file (rip.py lines 105-115): skip entirely when the destination
exists, otherwise perform the network request and write the file. -/
def fetch_file (env : Env) (url filename : String) (fs : FS) : Result :=
  if filename ∈ fs.files then ⟨fs, [], none⟩
  else if env.fetchOk url then ⟨⟨filename :: fs.files⟩, [.fetchFile url], none⟩
  else ⟨fs, [.fetchFile url], some (.fetchError url)⟩

/-- Best-effort removal (rip.py lines 160-167): os.remove wrapped in
try/except with a bare pass, so any failure (missing file or I/O error) is
swallowed. -/
def try_remove (env : Env) (path : String) (fs : FS) : FS × List Event :=
  if path ∈ fs.files ∧ env.removeOk path then
    (⟨fs.files.erase path⟩, [.removeAttempt path])
  else (fs, [.removeAttempt path])

/-- Stream selection step of download_episode (rip.py lines 131-134): the
adaptation sets at positions 0 and 1 are taken as video and audio, and the
shapes asserted there are checked (video carries a list of representations,
audio a single one).  Indexing past the end or a failing assert is a
streamSelectionError. -/
def select_streams (mpd_data : MPDFile) :
    Except RipError (AdaptationSet × AdaptationSet × List Representation × Representation) :=
  match mpd_data.meta.period.adaptation_set with
  | video :: audio :: _ =>
    match video.representation, audio.representation with
    | .list vreps, .single arep => .ok (video, audio, vreps, arep)
    | _, _ => .error .streamSelectionError
  | _ => .error .streamSelectionError

/-- Video representation choice (rip.py line 136): the element at index -1,
i.e. the last-declared representation; an empty list raises. -/
def select_video_rep (vreps : List Representation) : Option Representation :=
  vreps.getLast?

/-- Decrypt and combine step (rip.py lines 142-158): gate on the combined
file, check and normalize the key ids of the first protection entry of each
stream, look them up in the episode key map, then run the ffmpeg decrypt/mux
invocation, which creates the combined file on success. -/
def decrypt_combine (env : Env) (episode : Episode) (video audio : AdaptationSet)
    (combined : String) (fs : FS) (tr : List Event) : Result :=
  if combined ∈ fs.files then ⟨fs, tr, none⟩
  else
    match video.protections, audio.protections with
    | vp :: _, ap :: _ =>
      match vp.cenc_kid, ap.cenc_kid with
      | some vkid, some akid =>
        let video_key_id := normalize_kid vkid
        let audio_key_id := normalize_kid akid
        match dict_get episode.keys video_key_id with
        | none => ⟨fs, tr, some (.keyNotFound video_key_id)⟩
        | some _ =>
          match dict_get episode.keys audio_key_id with
          | none => ⟨fs, tr, some (.keyNotFound audio_key_id)⟩
          | some _ =>
            if env.mux combined then
              ⟨⟨combined :: fs.files⟩,
                tr ++ [.resolveKeys video_key_id audio_key_id, .mux combined], none⟩
            else ⟨fs, tr ++ [.resolveKeys video_key_id audio_key_id], some .decryptMuxError⟩
      | _, _ => ⟨fs, tr, some .missingKeyId⟩
    | _, _ => ⟨fs, tr, some .missingKeyId⟩

/-- Body of download_episode under the outer gate (rip.py lines 127-158):
fetch and parse the MPD, select the streams, fetch the video then the audio
segments, then decrypt and combine. -/
def fetch_and_combine (env : Env) (episode : Episode) (base mpd : String)
    (combined videoF audioF : String) (fs : FS) : Result :=
  let mpd_url := urljoin [base, episode.id, mpd]
  match env.mpd mpd_url with
  | .error e => ⟨fs, [.fetchMPD mpd_url], some e⟩
  | .ok mpd_data =>
    match select_streams mpd_data with
    | .error e => ⟨fs, [.fetchMPD mpd_url], some e⟩
    | .ok (video, audio, vreps, arep) =>
      match select_video_rep vreps with
      | none => ⟨fs, [.fetchMPD mpd_url, .selectStreams], some .streamSelectionError⟩
      | some vrep =>
        let tr0 := [Event.fetchMPD mpd_url, Event.selectStreams]
        let video_url := urljoin [base, episode.id, vrep.base_url]
        let rv := fetch_file env video_url videoF fs
        match rv.err with
        | some e => ⟨rv.fs, tr0 ++ rv.trace, some e⟩
        | none =>
          let audio_url := urljoin [base, episode.id, arep.base_url]
          let ra := fetch_file env audio_url audioF rv.fs
          match ra.err with
          | some e => ⟨ra.fs, tr0 ++ rv.trace ++ ra.trace, some e⟩
          | none =>
            decrypt_combine env episode video audio combined ra.fs
              (tr0 ++ rv.trace ++ ra.trace)

/-- download_episode (rip.py lines 118-167): the outer existence gate on the
combined file, the fetch-and-combine body, then the unconditional best-effort
removal of the two ephemeral encrypted files.  A raised error propagates
before the removal lines run, exactly as in the Python control flow. -/
def download_episode (env : Env) (episode : Episode) (base mpd dir name : String)
    (fs : FS) : Result :=
  let combined_filename := combined_path dir name
  let video_filename := video_path dir name
  let audio_filename := audio_path dir name
  let main :=
    if combined_filename ∈ fs.files then (⟨fs, [], none⟩ : Result)
    else fetch_and_combine env episode base mpd combined_filename video_filename
      audio_filename fs
  match main.err with
  | some _ => main
  | none =>
    let r1 := try_remove env video_filename main.fs
    let r2 := try_remove env audio_filename r1.1
    ⟨r2.1, main.trace ++ r1.2 ++ r2.2, none⟩

/-- Inner loop of download_playlist (rip.py lines 179-187): episodes in
declaration order, each under its sanitized name. -/
def run_episodes (env : Env) (src : Source) (dir : String) :
    List (String × Episode) → FS → Result
  | [], fs => ⟨fs, [], none⟩
  | (episode_name, episode) :: rest, fs =>
    let r := download_episode env episode src.base src.mpd dir (sanitize episode_name) fs
    match r.err with
    | some e => ⟨r.fs, r.trace, some e⟩
    | none =>
      let r2 := run_episodes env src dir rest r.fs
      ⟨r2.fs, r.trace ++ r2.trace, r2.err⟩

/-- Outer loop of download_playlist (rip.py lines 175-187): chapters in
declaration order; the chapter directory is created under the sanitized name
before its episodes run. -/
def run_chapters (env : Env) (src : Source) :
    List (String × Chapter) → FS → Result
  | [], fs => ⟨fs, [], none⟩
  | (chapter_name, chapter) :: rest, fs =>
    let dir := sanitize chapter_name
    let r := run_episodes env src dir chapter.episodes fs
    match r.err with
    | some e => ⟨r.fs, Event.makeDir dir :: r.trace, some e⟩
    | none =>
      let r2 := run_chapters env src rest r.fs
      ⟨r2.fs, (Event.makeDir dir :: r.trace) ++ r2.trace, r2.err⟩

/-- download_playlist (rip.py lines 170-187). -/
def download_playlist (env : Env) (playlist : Playlist) (fs : FS) : Result :=
  run_chapters env playlist.source playlist.chapters fs

/-- The sanitized directory and base name every episode of the playlist is
processed under, in processing order. -/
def chapter_paths (dir : String) (eps : List (String × Episode)) :
    List (String × String) :=
  eps.map (fun q => (dir, sanitize q.1))

def playlist_paths : List (String × Chapter) → List (String × String)
  | [] => []
  | (cn, ch) :: rest => chapter_paths (sanitize cn) ch.episodes ++ playlist_paths rest

/-- No episode's combined output path collides with any episode's ephemeral
video or audio path. -/
def no_collisions (ps : List (String × String)) : Prop :=
  ∀ p ∈ ps, ∀ q ∈ ps,
    combined_path p.1 p.2 ≠ video_path q.1 q.2 ∧
    combined_path p.1 p.2 ≠ audio_path q.1 q.2


/-! Concrete sample data used by the counterexamples and witnesses. -/

/-! Concrete sample data used by the counterexamples and witnesses. -/

def sampleSeg : SegmentBase := ⟨"0-1000", 1000, ⟨"0-100"⟩⟩

def sampleProt (kid : String) : ContentProtection :=
  ⟨"urn:mpeg:dash:mp4protection:2011", some "cenc", some kid, none⟩

def vRep (bw : Int) (url : String) : Representation :=
  ⟨bw, "avc1.64001f", "video/mp4", url, sampleSeg⟩

def aRep (url : String) : Representation :=
  ⟨64000, "mp4a.40.2", "audio/mp4", url, sampleSeg⟩

/-- An audio-tagged adaptation set declared first, carrying the list-shaped
representation field. -/
def c1_audio_first : AdaptationSet :=
  ⟨.audio, none, none, none, [sampleProt "aa-11"], .list [vRep 100 "first.mp4"]⟩

/-- A video-tagged adaptation set declared second, carrying a single
representation. -/
def c1_video_second : AdaptationSet :=
  ⟨.video, some 1920, some 1080, none, [sampleProt "bb-22"], .single (vRep 200 "second.mp4")⟩

/-- A validated manifest that declares the audio-tagged set at position 0 and
the video-tagged set at position 1. -/
def c1_manifest : MPDFile := ⟨⟨⟨[c1_audio_first, c1_video_second]⟩⟩⟩

def c2_reps : List Representation :=
  [vRep 200000 "v200.mp4", vRep 800000 "v800.mp4", vRep 500000 "v500.mp4"]

def c2w_reps : List Representation := [vRep 300000 "w300.mp4", vRep 900000 "w900.mp4"]

def c3_audio_two : AdaptationSet :=
  ⟨.audio, none, none, none, [sampleProt "cc-33"],
    .list [aRep "a1.mp4", aRep "a2.mp4"]⟩

def c3_video : AdaptationSet :=
  ⟨.video, some 1280, some 720, none, [sampleProt "dd-44"], .list [vRep 100 "v.mp4"]⟩

def c3_manifest : MPDFile := ⟨⟨⟨[c3_video, c3_audio_two]⟩⟩⟩

def c10_manifest : MPDFile :=
  ⟨⟨⟨[⟨.video, some 1920, some 1080, none, [sampleProt "ee-55"],
      .single (vRep 100 "only.mp4")⟩]⟩⟩⟩

def c10_env : Env :=
  ⟨fun _ => .ok c10_manifest, fun _ => true, fun _ => true, fun _ => true⟩

def c10_episode : Episode := ⟨"ep1", [("ee55", "KEY1")]⟩

def c5_manifest : MPDFile :=
  ⟨⟨⟨[⟨.video, some 1920, some 1080, none, [sampleProt "kid-v"], .list [vRep 100 "v.mp4"]⟩,
     ⟨.audio, none, none, none, [sampleProt "kid-a"], .single (aRep "a.mp4")⟩]⟩⟩⟩

def c5_episode : Episode := ⟨"ep1", [("kidv", "KEYV"), ("kida", "KEYA")]⟩

def c5_env : Env := ⟨fun _ => .ok c5_manifest, fun _ => true, fun _ => true, fun _ => true⟩

def c7_manifest : MPDFile :=
  ⟨⟨⟨[⟨.video, some 1920, some 1080, none, [sampleProt "kid-v"], .list [vRep 100 "v.mp4"]⟩,
     ⟨.audio, none, none, none, [sampleProt "kid-a"], .single (aRep "a.mp4")⟩]⟩⟩⟩

def c7_env : Env := ⟨fun _ => .ok c7_manifest, fun _ => true, fun _ => true, fun _ => true⟩

/-- An episode key map that lacks the normalized video key-id. -/
def c7_episode : Episode := ⟨"ep1", [("otherkid", "KEY9")]⟩

def c8_env : Env :=
  ⟨fun _ => .error .manifestInvalid, fun _ => false, fun _ => false, fun _ => false⟩

def c8_episode : Episode := ⟨"ep1", []⟩

def notMkdirEv : Event → Bool
  | .makeDir _ => false
  | _ => true

def c4_manifest : MPDFile :=
  ⟨⟨⟨[⟨.video, some 1920, some 1080, none, [sampleProt "kid-v"], .list [vRep 100 "v.mp4"]⟩,
     ⟨.audio, none, none, none, [sampleProt "kid-a"], .single (aRep "a.mp4")⟩]⟩⟩⟩

def c4_episode : Episode := ⟨"ep1", [("kidv", "KEYV"), ("kida", "KEYA")]⟩

def c4_env : Env := ⟨fun _ => .ok c4_manifest, fun _ => true, fun _ => true, fun _ => true⟩

/-- A playlist with two episodes in one chapter whose names collide: the first
episode's combined output path equals the second episode's ephemeral video
path. -/
def c4_playlist : Playlist :=
  ⟨⟨"http://h", "m.mpd"⟩, [("c", ⟨[("e.video", c4_episode), ("e", c4_episode)]⟩)]⟩

def c4w_playlist : Playlist :=
  ⟨⟨"http://h", "m.mpd"⟩, [("c", ⟨[("e", c4_episode)]⟩)]⟩

/-! Helper lemmas and the claim theorems. -/

/-! String helper lemmas: the three per-episode paths built by
download_episode from one directory and base name are pairwise distinct. -/

lemma data_append (s t : String) : (s ++ t).data = s.data ++ t.data := rfl

lemma append_left_cancel (a b c : String) (h : a ++ b = a ++ c) : b = c := by
  have h2 : a.data ++ b.data = a.data ++ c.data := by
    have h3 := congrArg String.data h
    simpa [data_append] using h3
  have h4 : b.data = c.data := List.append_cancel_left h2
  cases b
  cases c
  exact congrArg String.mk h4

lemma head_append_congr (n s1 s2 : String)
    (h : s1.data.head? = s2.data.head?) :
    (n ++ s1).data.head? = (n ++ s2).data.head? := by
  cases hn : n.data with
  | nil =>
    have e1 : (n ++ s1).data = s1.data := by simp [data_append, hn]
    have e2 : (n ++ s2).data = s2.data := by simp [data_append, hn]
    rw [e1, e2, h]
  | cons c cs =>
    have e1 : (n ++ s1).data = c :: (cs ++ s1.data) := by simp [data_append, hn]
    have e2 : (n ++ s2).data = c :: (cs ++ s2.data) := by simp [data_append, hn]
    rw [e1, e2]
    rfl

lemma path_join_suffix_cancel (d n s1 s2 : String)
    (hh : s1.data.head? = s2.data.head?)
    (heq : path_join d (n ++ s1) = path_join d (n ++ s2)) : s1 = s2 := by
  have hc : (n ++ s1).data.head? = (n ++ s2).data.head? := head_append_congr n s1 s2 hh
  unfold path_join at heq
  by_cases h1 : (n ++ s1).data.head? = some '/'
  · have h2 : (n ++ s2).data.head? = some '/' := by rw [← hc]; exact h1
    rw [if_pos h1, if_pos h2] at heq
    exact append_left_cancel n s1 s2 heq
  · have h2 : ¬ (n ++ s2).data.head? = some '/' := by rw [← hc]; exact h1
    rw [if_neg h1, if_neg h2] at heq
    by_cases h3 : d.data = [] ∨ d.data.getLast? = some '/'
    · rw [if_pos h3, if_pos h3] at heq
      exact append_left_cancel n s1 s2 (append_left_cancel d (n ++ s1) (n ++ s2) heq)
    · rw [if_neg h3, if_neg h3] at heq
      exact append_left_cancel n s1 s2 (append_left_cancel (d ++ "/") (n ++ s1) (n ++ s2) heq)

lemma combined_ne_video (dir name : String) :
    combined_path dir name ≠ video_path dir name := by
  intro h
  have h2 : (".mp4" : String) = ".video.mp4" :=
    path_join_suffix_cancel dir name ".mp4" ".video.mp4" (by decide) h
  exact absurd h2 (by decide)

lemma combined_ne_audio (dir name : String) :
    combined_path dir name ≠ audio_path dir name := by
  intro h
  have h2 : (".mp4" : String) = ".audio.mp4" :=
    path_join_suffix_cancel dir name ".mp4" ".audio.mp4" (by decide) h
  exact absurd h2 (by decide)

lemma video_ne_audio (dir name : String) :
    video_path dir name ≠ audio_path dir name := by
  intro h
  have h2 : (".video.mp4" : String) = ".audio.mp4" :=
    path_join_suffix_cancel dir name ".video.mp4" ".audio.mp4" (by decide) h
  exact absurd h2 (by decide)

lemma try_remove_trace (env : Env) (p : String) (fs : FS) :
    (try_remove env p fs).2 = [Event.removeAttempt p] := by
  unfold try_remove
  split <;> rfl

lemma mem_try_remove (env : Env) (p : String) (fs : FS) (f : String)
    (hf : f ∈ fs.files) (hne : f ≠ p) : f ∈ (try_remove env p fs).1.files := by
  unfold try_remove
  split
  · exact (List.mem_erase_of_ne hne).mpr hf
  · exact hf

lemma fetch_file_mem (env : Env) (url fn : String) (fs : FS) (f : String)
    (hf : f ∈ fs.files) : f ∈ (fetch_file env url fn fs).fs.files := by
  unfold fetch_file
  split
  · exact hf
  · split
    · exact List.mem_cons_of_mem _ hf
    · exact hf

lemma decrypt_combine_mem (env : Env) (ep : Episode) (v a : AdaptationSet)
    (c : String) (fs : FS) (tr : List Event) (f : String) (hf : f ∈ fs.files) :
    f ∈ (decrypt_combine env ep v a c fs tr).fs.files := by
  simp only [decrypt_combine]
  repeat' split
  all_goals first
    | exact hf
    | exact List.mem_cons_of_mem _ hf

lemma decrypt_combine_combined (env : Env) (ep : Episode) (v a : AdaptationSet)
    (c : String) (fs : FS) (tr : List Event)
    (he : (decrypt_combine env ep v a c fs tr).err = none) :
    c ∈ (decrypt_combine env ep v a c fs tr).fs.files := by
  simp only [decrypt_combine] at he ⊢
  split at he
  all_goals simp_all
  repeat' split at he
  all_goals simp_all

lemma fetch_and_combine_mem (env : Env) (ep : Episode) (base mpd c vf af : String)
    (fs : FS) (f : String) (hf : f ∈ fs.files) :
    f ∈ (fetch_and_combine env ep base mpd c vf af fs).fs.files := by
  simp only [fetch_and_combine]
  repeat' split
  all_goals first
    | exact hf
    | exact fetch_file_mem _ _ _ _ _ hf
    | exact fetch_file_mem _ _ _ _ _ (fetch_file_mem _ _ _ _ _ hf)
    | exact decrypt_combine_mem _ _ _ _ _ _ _ _
        (fetch_file_mem _ _ _ _ _ (fetch_file_mem _ _ _ _ _ hf))

lemma fetch_and_combine_combined (env : Env) (ep : Episode) (base mpd c vf af : String)
    (fs : FS)
    (he : (fetch_and_combine env ep base mpd c vf af fs).err = none) :
    c ∈ (fetch_and_combine env ep base mpd c vf af fs).fs.files := by
  simp only [fetch_and_combine] at he ⊢
  repeat' split at he
  all_goals simp_all
  exact decrypt_combine_combined _ _ _ _ _ _ _ he

lemma download_episode_mem (env : Env) (ep : Episode) (base mpd dir name : String)
    (fs : FS) (f : String) (hf : f ∈ fs.files)
    (hv : f ≠ video_path dir name) (ha : f ≠ audio_path dir name) :
    f ∈ (download_episode env ep base mpd dir name fs).fs.files := by
  simp only [download_episode]
  by_cases hg : combined_path dir name ∈ fs.files
  · rw [if_pos hg]
    exact mem_try_remove _ _ _ _ (mem_try_remove _ _ _ _ hf hv) ha
  · rw [if_neg hg]
    split
    · exact fetch_and_combine_mem _ _ _ _ _ _ _ _ _ hf
    · exact mem_try_remove _ _ _ _
        (mem_try_remove _ _ _ _ (fetch_and_combine_mem _ _ _ _ _ _ _ _ _ hf) hv) ha

lemma download_episode_combined (env : Env) (ep : Episode) (base mpd dir name : String)
    (fs : FS)
    (he : (download_episode env ep base mpd dir name fs).err = none) :
    combined_path dir name ∈ (download_episode env ep base mpd dir name fs).fs.files := by
  simp only [download_episode] at he ⊢
  by_cases hg : combined_path dir name ∈ fs.files
  · rw [if_pos hg] at he ⊢
    exact mem_try_remove _ _ _ _
      (mem_try_remove _ _ _ _ hg (combined_ne_video dir name)) (combined_ne_audio dir name)
  · rw [if_neg hg] at he ⊢
    cases hfe : (fetch_and_combine env ep base mpd (combined_path dir name)
        (video_path dir name) (audio_path dir name) fs).err with
    | some e => simp only [hfe] at he; simp [hfe] at he
    | none =>
      simp only [hfe]
      exact mem_try_remove _ _ _ _
        (mem_try_remove _ _ _ _ (fetch_and_combine_combined _ _ _ _ _ _ _ _ hfe)
          (combined_ne_video dir name)) (combined_ne_audio dir name)

lemma download_episode_skip (env : Env) (ep : Episode) (base mpd dir name : String)
    (fs : FS) (h : combined_path dir name ∈ fs.files) :
    download_episode env ep base mpd dir name fs =
      ⟨(try_remove env (audio_path dir name)
          (try_remove env (video_path dir name) fs).1).1,
        [Event.removeAttempt (video_path dir name),
         Event.removeAttempt (audio_path dir name)], none⟩ := by
  simp only [download_episode]
  rw [if_pos h]
  simp [try_remove_trace]

lemma download_episode_err (env : Env) (ep : Episode) (base mpd dir name : String)
    (fs : FS) (e : RipError)
    (hg : combined_path dir name ∉ fs.files)
    (hfe : (fetch_and_combine env ep base mpd (combined_path dir name)
        (video_path dir name) (audio_path dir name) fs).err = some e) :
    download_episode env ep base mpd dir name fs =
      fetch_and_combine env ep base mpd (combined_path dir name)
        (video_path dir name) (audio_path dir name) fs := by
  simp only [download_episode]
  rw [if_neg hg]
  simp only [hfe]

lemma download_episode_ok (env : Env) (ep : Episode) (base mpd dir name : String)
    (fs : FS)
    (hg : combined_path dir name ∉ fs.files)
    (hfe : (fetch_and_combine env ep base mpd (combined_path dir name)
        (video_path dir name) (audio_path dir name) fs).err = none) :
    download_episode env ep base mpd dir name fs =
      ⟨(try_remove env (audio_path dir name)
          (try_remove env (video_path dir name)
            (fetch_and_combine env ep base mpd (combined_path dir name)
              (video_path dir name) (audio_path dir name) fs).fs).1).1,
        (fetch_and_combine env ep base mpd (combined_path dir name)
            (video_path dir name) (audio_path dir name) fs).trace ++
          [Event.removeAttempt (video_path dir name),
           Event.removeAttempt (audio_path dir name)], none⟩ := by
  simp only [download_episode]
  rw [if_neg hg]
  simp only [hfe]
  rw [try_remove_trace, try_remove_trace]
  simp

lemma decrypt_combine_ok (env : Env) (ep : Episode) (v a : AdaptationSet)
    (c : String) (fs : FS) (tr : List Event)
    (vp ap : ContentProtection) (vps aps : List ContentProtection)
    (vkid akid kv ka : String)
    (hc : c ∉ fs.files)
    (hvp : v.protections = vp :: vps) (hap : a.protections = ap :: aps)
    (hvk : vp.cenc_kid = some vkid) (hak : ap.cenc_kid = some akid)
    (hkv : dict_get ep.keys (normalize_kid vkid) = some kv)
    (hka : dict_get ep.keys (normalize_kid akid) = some ka)
    (hmux : env.mux c = true) :
    decrypt_combine env ep v a c fs tr =
      ⟨⟨c :: fs.files⟩,
        tr ++ [Event.resolveKeys (normalize_kid vkid) (normalize_kid akid), Event.mux c],
        none⟩ := by
  simp only [decrypt_combine]
  rw [if_neg hc]
  simp [hvp, hap, hvk, hak, hkv, hka, hmux]

lemma decrypt_combine_video_key_missing (env : Env) (ep : Episode) (v a : AdaptationSet)
    (c : String) (fs : FS) (tr : List Event)
    (vp ap : ContentProtection) (vps aps : List ContentProtection)
    (vkid akid : String)
    (hc : c ∉ fs.files)
    (hvp : v.protections = vp :: vps) (hap : a.protections = ap :: aps)
    (hvk : vp.cenc_kid = some vkid) (hak : ap.cenc_kid = some akid)
    (hmiss : dict_get ep.keys (normalize_kid vkid) = none) :
    decrypt_combine env ep v a c fs tr =
      ⟨fs, tr, some (.keyNotFound (normalize_kid vkid))⟩ := by
  simp only [decrypt_combine]
  rw [if_neg hc]
  simp [hvp, hap, hvk, hak, hmiss]

lemma decrypt_combine_audio_key_missing (env : Env) (ep : Episode) (v a : AdaptationSet)
    (c : String) (fs : FS) (tr : List Event)
    (vp ap : ContentProtection) (vps aps : List ContentProtection)
    (vkid akid kv : String)
    (hc : c ∉ fs.files)
    (hvp : v.protections = vp :: vps) (hap : a.protections = ap :: aps)
    (hvk : vp.cenc_kid = some vkid) (hak : ap.cenc_kid = some akid)
    (hkv : dict_get ep.keys (normalize_kid vkid) = some kv)
    (hmiss : dict_get ep.keys (normalize_kid akid) = none) :
    decrypt_combine env ep v a c fs tr =
      ⟨fs, tr, some (.keyNotFound (normalize_kid akid))⟩ := by
  simp only [decrypt_combine]
  rw [if_neg hc]
  simp [hvp, hap, hvk, hak, hkv, hmiss]

lemma fetch_and_combine_eq (env : Env) (ep : Episode) (base mpd c vf af : String)
    (fs : FS) (m : MPDFile) (video audio : AdaptationSet)
    (vreps : List Representation) (arep vrep : Representation)
    (hm : env.mpd (urljoin [base, ep.id, mpd]) = .ok m)
    (hsel : select_streams m = .ok (video, audio, vreps, arep))
    (hrep : select_video_rep vreps = some vrep)
    (hvf : vf ∉ fs.files) (haf : af ∉ fs.files) (hav : af ≠ vf)
    (hfv : env.fetchOk (urljoin [base, ep.id, vrep.base_url]) = true)
    (hfa : env.fetchOk (urljoin [base, ep.id, arep.base_url]) = true) :
    fetch_and_combine env ep base mpd c vf af fs =
      decrypt_combine env ep video audio c ⟨af :: vf :: fs.files⟩
        [Event.fetchMPD (urljoin [base, ep.id, mpd]), Event.selectStreams,
         Event.fetchFile (urljoin [base, ep.id, vrep.base_url]),
         Event.fetchFile (urljoin [base, ep.id, arep.base_url])] := by
  simp only [fetch_and_combine, hm, hsel, hrep, fetch_file]
  rw [if_neg hvf]
  rw [if_pos hfv]
  simp only []
  have haf2 : af ∉ (vf :: fs.files) := by
    intro hmem
    rcases List.mem_cons.mp hmem with h1 | h2
    · exact hav h1
    · exact haf h2
  rw [if_neg haf2]
  rw [if_pos hfa]
  simp

/-- C1 counterexample: on a validated manifest declaring the audio-tagged
adaptation set first, stream selection succeeds and returns the audio-tagged
set in the video position, so selection is not by content-type tag. -/
theorem c1_counterexample :
    select_streams c1_manifest =
      .ok (c1_audio_first, c1_video_second, [vRep 100 "first.mp4"], vRep 200 "second.mp4") ∧
    c1_audio_first.content_type = ContentType.audio ∧
    c1_video_second.content_type = ContentType.video ∧
    ¬ ∃ v a vr ar, select_streams c1_manifest = .ok (v, a, vr, ar) ∧
        v.content_type = ContentType.video := by
  refine ⟨rfl, rfl, rfl, ?_⟩
  rintro ⟨v, a, vr, ar, hsel, htag⟩
  have h2 : (Except.ok (c1_audio_first, c1_video_second, [vRep 100 "first.mp4"],
        vRep 200 "second.mp4") :
      Except RipError (AdaptationSet × AdaptationSet × List Representation × Representation)) =
      .ok (v, a, vr, ar) := by
    rw [← hsel]
    rfl
  have h3 := Except.ok.inj h2
  have hv : v = c1_audio_first := (congrArg (fun x => x.1) h3).symm
  rw [hv] at htag
  exact absurd htag (by decide)

/-- C1 amended: stream selection is positional.  Whenever it succeeds, the
returned video and audio streams are exactly the adaptation sets at positions
0 and 1 of the manifest, with the asserted representation shapes, regardless
of their content-type tags. -/
theorem c1_amended_positional (m : MPDFile) (v a : AdaptationSet)
    (vreps : List Representation) (arep : Representation)
    (h : select_streams m = .ok (v, a, vreps, arep)) :
    m.meta.period.adaptation_set.take 2 = [v, a] ∧
    v.representation = .list vreps ∧ a.representation = .single arep := by
  unfold select_streams at h
  split at h
  all_goals try simp at h
  split at h
  all_goals try simp at h
  rename_i xs video audio tail heq x1 x2 vreps0 arep0 hv ha
  obtain ⟨h1, h2, h3, h4⟩ := h
  subst h1
  subst h2
  subst h3
  subst h4
  rw [heq]
  exact ⟨rfl, hv, ha⟩

/-- C1 witness: the amended positional statement at the concrete manifest. -/
theorem c1_amended_witness :
    c1_manifest.meta.period.adaptation_set.take 2 = [c1_audio_first, c1_video_second] ∧
    c1_audio_first.representation = .list [vRep 100 "first.mp4"] ∧
    c1_video_second.representation = .single (vRep 200 "second.mp4") :=
  c1_amended_positional c1_manifest c1_audio_first c1_video_second
    [vRep 100 "first.mp4"] (vRep 200 "second.mp4") rfl

/-- C2 counterexample: with bandwidths declared in the order
200000, 800000, 500000 the code selects the last-declared representation,
whose bandwidth 500000 is strictly below the maximum 800000 present in the
sequence. -/
theorem c2_counterexample :
    select_video_rep c2_reps = some (vRep 500000 "v500.mp4") ∧
    vRep 800000 "v800.mp4" ∈ c2_reps ∧
    (vRep 500000 "v500.mp4").bandwidth < (vRep 800000 "v800.mp4").bandwidth := by
  refine ⟨rfl, by decide, by decide⟩

/-- C2 amended: the selected representation is the last-declared one, and
whenever the sequence is ranked ascending by bandwidth (the data-model
invariant of the spec) it does have maximum bandwidth. -/
theorem c2_amended_last_selected (vreps : List Representation) (r : Representation)
    (hsorted : List.Pairwise (fun x y => x.bandwidth ≤ y.bandwidth) vreps)
    (hsel : select_video_rep vreps = some r) :
    ∀ s ∈ vreps, s.bandwidth ≤ r.bandwidth := by
  induction vreps with
  | nil => simp [select_video_rep] at hsel
  | cons x xs ih =>
    cases xs with
    | nil =>
      simp [select_video_rep] at hsel
      subst hsel
      intro s hs
      simp at hs
      subst hs
      exact le_refl _
    | cons y ys =>
      have hx : ∀ z ∈ y :: ys, x.bandwidth ≤ z.bandwidth :=
        (List.pairwise_cons.mp hsorted).1
      have hsorted2 := (List.pairwise_cons.mp hsorted).2
      have hsel2 : select_video_rep (y :: ys) = some r := by
        simpa [select_video_rep] using hsel
      have ih2 := ih hsorted2 hsel2
      intro s hs
      rcases List.mem_cons.mp hs with h1 | h2
      · subst h1
        have hmem : r ∈ (y :: ys).getLast? := by
          rw [Option.mem_def]
          exact hsel2
        obtain ⟨hne, heq⟩ := List.mem_getLast?_eq_getLast hmem
        have hlast : (y :: ys).getLast hne ∈ y :: ys := List.getLast_mem hne
        rw [heq]
        exact hx _ hlast
      · exact ih2 s h2

/-- C2 witness: the amended statement at an ascending two-element sequence. -/
theorem c2_amended_witness :
    (vRep 300000 "w300.mp4").bandwidth ≤ (vRep 900000 "w900.mp4").bandwidth :=
  c2_amended_last_selected c2w_reps (vRep 900000 "w900.mp4") (by decide) rfl
    (vRep 300000 "w300.mp4") (by decide)

/-- Selection errors whenever the first adaptation set carries the
single-representation shape, whatever follows it. -/
lemma select_streams_single_first (m : MPDFile) (v : AdaptationSet) (r : Representation)
    (rest : List AdaptationSet) (hl : m.meta.period.adaptation_set = v :: rest)
    (hv : v.representation = .single r) :
    select_streams m = .error .streamSelectionError := by
  unfold select_streams
  rw [hl]
  cases rest with
  | nil => rfl
  | cons a t =>
    change (match v.representation, a.representation with
      | RepOrList.list vreps, RepOrList.single arep => Except.ok (v, a, vreps, arep)
      | _, _ => Except.error RipError.streamSelectionError) =
        Except.error RipError.streamSelectionError
    rw [hv]

/-- Selection errors whenever the second adaptation set carries the
list-representation shape. -/
lemma select_streams_list_second (m : MPDFile) (v a : AdaptationSet)
    (rest : List AdaptationSet) (reps : List Representation)
    (hl : m.meta.period.adaptation_set = v :: a :: rest)
    (ha : a.representation = .list reps) :
    select_streams m = .error .streamSelectionError := by
  unfold select_streams
  rw [hl]
  change (match v.representation, a.representation with
    | RepOrList.list vreps, RepOrList.single arep => Except.ok (v, a, vreps, arep)
    | _, _ => Except.error RipError.streamSelectionError) =
      Except.error RipError.streamSelectionError
  rw [ha]
  cases hv : v.representation with
  | single r2 => rfl
  | list rs => rfl

/-- C3: for every manifest whose audio adaptation set (position 1) carries
more than one representation, i.e. the list-shaped parse, stream selection
fails with StreamSelectionError instead of silently picking one. -/
theorem c3_multi_audio_rejected (m : MPDFile) (v a : AdaptationSet)
    (rest : List AdaptationSet) (reps : List Representation)
    (hl : m.meta.period.adaptation_set = v :: a :: rest)
    (hreps : a.representation = .list reps)
    (hmulti : 2 ≤ reps.length) :
    select_streams m = .error .streamSelectionError :=
  select_streams_list_second m v a rest reps hl hreps

/-- C3 witness: a manifest whose audio set carries two representations is
rejected with StreamSelectionError. -/
theorem c3_witness : select_streams c3_manifest = .error .streamSelectionError :=
  c3_multi_audio_rejected c3_manifest c3_video c3_audio_two []
    [aRep "a1.mp4", aRep "a2.mp4"] rfl rfl (by decide)

/-- C6: key resolution is invariant under hyphen placement: any two declared
key-ids whose hyphen-free character sequences agree normalize to the same
key and hence resolve to the same key map entry; in particular the manifest
key-id with hyphens normalizes to the bare hex form and resolves against a
map entry declared without hyphens. -/
theorem c6_hyphen_invariance (keys : List (String × String)) (s t : String)
    (h : s.data.filter (fun c => c ≠ '-') = t.data.filter (fun c => c ≠ '-')) :
    dict_get keys (normalize_kid s) = dict_get keys (normalize_kid t) ∧
    normalize_kid "1234-5678-90ab-cdef" = "1234567890abcdef" ∧
    dict_get [("1234567890abcdef", "00112233445566778899aabbccddeeff")]
        (normalize_kid "1234-5678-90ab-cdef") =
      some "00112233445566778899aabbccddeeff" := by
  refine ⟨?_, by decide, by decide⟩
  unfold normalize_kid
  rw [h]

/-- C6 witness: the hyphenated and bare forms of one identifier resolve to
the same entry. -/
theorem c6_witness :
    dict_get [("abcdef", "KEY0")] (normalize_kid "ab-cd-ef") =
      dict_get [("abcdef", "KEY0")] (normalize_kid "abcdef") :=
  (c6_hyphen_invariance [("abcdef", "KEY0")] "ab-cd-ef" "abcdef" (by decide)).1

/-- C10: a validated manifest whose first adaptation set holds the
single-representation parse makes the episode fail with the
StreamSelectionError of the shape assert, before any segment is fetched. -/
theorem c10_single_rep_fails_before_fetch (env : Env) (ep : Episode)
    (base mpd dir name : String) (fs : FS) (m : MPDFile) (v : AdaptationSet)
    (r : Representation) (rest : List AdaptationSet)
    (hg : combined_path dir name ∉ fs.files)
    (hm : env.mpd (urljoin [base, ep.id, mpd]) = .ok m)
    (hl : m.meta.period.adaptation_set = v :: rest)
    (hv : v.representation = .single r) :
    mpd_structurally_valid m = true ∧
    (download_episode env ep base mpd dir name fs).err = some .streamSelectionError ∧
    ∀ e ∈ (download_episode env ep base mpd dir name fs).trace, isFetchFileEv e = false := by
  have hsel := select_streams_single_first m v r rest hl hv
  have hfac : fetch_and_combine env ep base mpd (combined_path dir name)
      (video_path dir name) (audio_path dir name) fs =
      ⟨fs, [.fetchMPD (urljoin [base, ep.id, mpd])], some .streamSelectionError⟩ := by
    simp only [fetch_and_combine, hm, hsel]
  have hde := download_episode_err env ep base mpd dir name fs _ hg (by rw [hfac])
  rw [hde, hfac]
  refine ⟨?_, rfl, ?_⟩
  · simp [mpd_structurally_valid, hl]
  · intro e he2
    simp at he2
    subst he2
    rfl

/-- C10 witness: the failure at a concrete single-representation manifest. -/
theorem c10_witness :
    (download_episode c10_env c10_episode "http://h" "m.mpd" "d" "e" ⟨[]⟩).err =
      some .streamSelectionError :=
  (c10_single_rep_fails_before_fetch c10_env c10_episode "http://h" "m.mpd" "d" "e"
    ⟨[]⟩ c10_manifest
    ⟨.video, some 1920, some 1080, none, [sampleProt "ee-55"], .single (vRep 100 "only.mp4")⟩
    (vRep 100 "only.mp4") [] (by decide) rfl rfl rfl).2.1

/-- A successful episode run with the combined file absent means the
fetch-and-combine body itself succeeded. -/
lemma fac_err_of_ok (env : Env) (ep : Episode) (base mpd dir name : String) (fs : FS)
    (hg : combined_path dir name ∉ fs.files)
    (he : (download_episode env ep base mpd dir name fs).err = none) :
    (fetch_and_combine env ep base mpd (combined_path dir name)
      (video_path dir name) (audio_path dir name) fs).err = none := by
  cases hfo : (fetch_and_combine env ep base mpd (combined_path dir name)
      (video_path dir name) (audio_path dir name) fs).err with
  | none => rfl
  | some e =>
    have hde := download_episode_err env ep base mpd dir name fs e hg hfo
    rw [hde] at he
    rw [hfo] at he
    exact absurd he (by simp)

/-- Inversion of a successful decrypt-and-combine with the combined file
absent: the keys resolved, the mux ran, and the trace records both. -/
lemma decrypt_combine_ok_inv (env : Env) (ep : Episode) (v a : AdaptationSet)
    (c : String) (fs : FS) (tr : List Event) (hc : c ∉ fs.files)
    (he : (decrypt_combine env ep v a c fs tr).err = none) :
    ∃ vkid akid, decrypt_combine env ep v a c fs tr =
      ⟨⟨c :: fs.files⟩,
        tr ++ [Event.resolveKeys (normalize_kid vkid) (normalize_kid akid), Event.mux c],
        none⟩ := by
  cases hvp : v.protections with
  | nil =>
    exfalso
    simp only [decrypt_combine] at he
    rw [if_neg hc] at he
    simp [hvp] at he
  | cons vp vps =>
    cases hap : a.protections with
    | nil =>
      exfalso
      simp only [decrypt_combine] at he
      rw [if_neg hc] at he
      simp [hvp, hap] at he
    | cons ap aps =>
      cases hvk : vp.cenc_kid with
      | none =>
        exfalso
        simp only [decrypt_combine] at he
        rw [if_neg hc] at he
        simp [hvp, hap, hvk] at he
      | some vkid =>
        cases hak : ap.cenc_kid with
        | none =>
          exfalso
          simp only [decrypt_combine] at he
          rw [if_neg hc] at he
          simp [hvp, hap, hvk, hak] at he
        | some akid =>
          cases hkv : dict_get ep.keys (normalize_kid vkid) with
          | none =>
            exfalso
            simp only [decrypt_combine] at he
            rw [if_neg hc] at he
            simp [hvp, hap, hvk, hak, hkv] at he
          | some kv =>
            cases hka : dict_get ep.keys (normalize_kid akid) with
            | none =>
              exfalso
              simp only [decrypt_combine] at he
              rw [if_neg hc] at he
              simp [hvp, hap, hvk, hak, hkv, hka] at he
            | some ka =>
              by_cases hmux : env.mux c = true
              · exact ⟨vkid, akid,
                  decrypt_combine_ok env ep v a c fs tr vp ap vps aps vkid akid kv ka
                    hc hvp hap hvk hak hkv hka hmux⟩
              · exfalso
                simp only [decrypt_combine] at he
                rw [if_neg hc] at he
                simp [hvp, hap, hvk, hak, hkv, hka, hmux] at he

/-- Inversion of a successful fetch-and-combine body on a fresh filesystem:
the whole step sequence ran, in code order, and the trace records it. -/
lemma fetch_and_combine_ok_inv (env : Env) (ep : Episode) (base mpd c vf af : String)
    (fs : FS)
    (hc : c ∉ fs.files) (hvf : vf ∉ fs.files) (haf : af ∉ fs.files)
    (hcv : c ≠ vf) (hca : c ≠ af) (hav : af ≠ vf)
    (he : (fetch_and_combine env ep base mpd c vf af fs).err = none) :
    ∃ mu vu au vk ak, fetch_and_combine env ep base mpd c vf af fs =
      ⟨⟨c :: af :: vf :: fs.files⟩,
        [Event.fetchMPD mu, Event.selectStreams, Event.fetchFile vu, Event.fetchFile au,
         Event.resolveKeys vk ak, Event.mux c], none⟩ := by
  cases hm : env.mpd (urljoin [base, ep.id, mpd]) with
  | error e =>
    exfalso
    simp [fetch_and_combine, hm] at he
  | ok m =>
    cases hs : select_streams m with
    | error e =>
      exfalso
      simp [fetch_and_combine, hm, hs] at he
    | ok quad =>
      obtain ⟨video, audio, vreps, arep⟩ := quad
      cases hr : select_video_rep vreps with
      | none =>
        exfalso
        simp [fetch_and_combine, hm, hs, hr] at he
      | some vrep =>
        by_cases hfv : env.fetchOk (urljoin [base, ep.id, vrep.base_url]) = true
        · by_cases hfa : env.fetchOk (urljoin [base, ep.id, arep.base_url]) = true
          · have heq := fetch_and_combine_eq env ep base mpd c vf af fs m video audio
              vreps arep vrep hm hs hr hvf haf hav hfv hfa
            have hc2 : c ∉ (FS.mk (af :: vf :: fs.files)).files := by
              simp only [List.mem_cons]
              rintro (h1 | h2 | h3)
              · exact hca h1
              · exact hcv h2
              · exact hc h3
            have he2 : (decrypt_combine env ep video audio c ⟨af :: vf :: fs.files⟩
                [Event.fetchMPD (urljoin [base, ep.id, mpd]), Event.selectStreams,
                 Event.fetchFile (urljoin [base, ep.id, vrep.base_url]),
                 Event.fetchFile (urljoin [base, ep.id, arep.base_url])]).err = none := by
              rw [← heq]
              exact he
            obtain ⟨vk, ak, hdc⟩ := decrypt_combine_ok_inv env ep video audio c _ _ hc2 he2
            refine ⟨urljoin [base, ep.id, mpd], urljoin [base, ep.id, vrep.base_url],
              urljoin [base, ep.id, arep.base_url], normalize_kid vk, normalize_kid ak, ?_⟩
            rw [heq, hdc]
            rfl
          · exfalso
            simp [fetch_and_combine, fetch_file, hm, hs, hr, hvf, haf, hav, hfv, hfa] at he
        · exfalso
          simp [fetch_and_combine, fetch_file, hm, hs, hr, hvf, hfv] at he

/-- C5 counterexample: a full successful episode run whose trace shows both
segment fetches happening strictly before key resolution, refuting the
claimed order manifest, selection, key resolution, video fetch, audio fetch,
mux, cleanup. -/
theorem c5_counterexample :
    (download_episode c5_env c5_episode "http://h" "m.mpd" "d" "e" ⟨[]⟩).trace =
      [.fetchMPD "http://h/ep1/m.mpd", .selectStreams,
       .fetchFile "http://h/ep1/v.mp4", .fetchFile "http://h/ep1/a.mp4",
       .resolveKeys "kidv" "kida", .mux "d/e.mp4",
       .removeAttempt "d/e.video.mp4", .removeAttempt "d/e.audio.mp4"] ∧
    ((download_episode c5_env c5_episode "http://h" "m.mpd" "d" "e" ⟨[]⟩).trace.takeWhile
        (fun e => !isResolveKeysEv e)).any isFetchFileEv = true :=
  ⟨rfl, rfl⟩

/-- C5 amended: within an episode whose pipeline actually runs from a clean
slate and succeeds, the steps occur strictly in the order manifest fetch,
stream selection, video fetch, audio fetch, key resolution, decrypt/mux,
cleanup of the video then the audio temp file. -/
theorem c5_amended_order (env : Env) (ep : Episode) (base mpd dir name : String)
    (fs : FS)
    (hg : combined_path dir name ∉ fs.files)
    (hvf : video_path dir name ∉ fs.files)
    (haf : audio_path dir name ∉ fs.files)
    (he : (download_episode env ep base mpd dir name fs).err = none) :
    (download_episode env ep base mpd dir name fs).trace.map event_kind =
      [.mpdK, .selectK, .fetchK, .fetchK, .resolveK, .muxK, .removeK, .removeK] ∧
    (download_episode env ep base mpd dir name fs).trace.get? 5 =
      some (.mux (combined_path dir name)) ∧
    (download_episode env ep base mpd dir name fs).trace.get? 6 =
      some (.removeAttempt (video_path dir name)) ∧
    (download_episode env ep base mpd dir name fs).trace.get? 7 =
      some (.removeAttempt (audio_path dir name)) := by
  have hfe := fac_err_of_ok env ep base mpd dir name fs hg he
  obtain ⟨mu, vu, au, vk, ak, hfac⟩ := fetch_and_combine_ok_inv env ep base mpd
    (combined_path dir name) (video_path dir name) (audio_path dir name) fs
    hg hvf haf (combined_ne_video dir name) (combined_ne_audio dir name)
    (Ne.symm (video_ne_audio dir name)) hfe
  have hde := download_episode_ok env ep base mpd dir name fs hg hfe
  rw [hde, hfac]
  exact ⟨rfl, rfl, rfl, rfl⟩

/-- C5 witness: the amended order at a concrete full run. -/
theorem c5_amended_witness :
    (download_episode c5_env c5_episode "http://h" "m.mpd" "d" "e" ⟨[]⟩).trace.map
        event_kind =
      [.mpdK, .selectK, .fetchK, .fetchK, .resolveK, .muxK, .removeK, .removeK] :=
  (c5_amended_order c5_env c5_episode "http://h" "m.mpd" "d" "e" ⟨[]⟩
    (by decide) (by decide) (by decide) (by rfl)).1

/-- C7: when a consulted content-protection key-id normalizes to an id absent
from the episode key map, the episode fails with KeyNotFound naming exactly
the normalized id, and the combined output file is not produced.  The first
conjunct covers the video stream entry, the second the audio stream entry. -/
theorem c7_key_not_found (env : Env) (ep : Episode) (base mpd dir name : String)
    (fs : FS) (m : MPDFile) (video audio : AdaptationSet) (vreps : List Representation)
    (arep vrep : Representation) (vp ap : ContentProtection)
    (vps aps : List ContentProtection) (vkid akid : String)
    (hg : combined_path dir name ∉ fs.files)
    (hvf : video_path dir name ∉ fs.files)
    (haf : audio_path dir name ∉ fs.files)
    (hm : env.mpd (urljoin [base, ep.id, mpd]) = .ok m)
    (hsel : select_streams m = .ok (video, audio, vreps, arep))
    (hrep : select_video_rep vreps = some vrep)
    (hfv : env.fetchOk (urljoin [base, ep.id, vrep.base_url]) = true)
    (hfa : env.fetchOk (urljoin [base, ep.id, arep.base_url]) = true)
    (hvp : video.protections = vp :: vps) (hap : audio.protections = ap :: aps)
    (hvk : vp.cenc_kid = some vkid) (hak : ap.cenc_kid = some akid) :
    (dict_get ep.keys (normalize_kid vkid) = none →
      (download_episode env ep base mpd dir name fs).err =
        some (.keyNotFound (normalize_kid vkid)) ∧
      combined_path dir name ∉ (download_episode env ep base mpd dir name fs).fs.files) ∧
    (∀ kv, dict_get ep.keys (normalize_kid vkid) = some kv →
      dict_get ep.keys (normalize_kid akid) = none →
      (download_episode env ep base mpd dir name fs).err =
        some (.keyNotFound (normalize_kid akid)) ∧
      combined_path dir name ∉ (download_episode env ep base mpd dir name fs).fs.files) := by
  have hfac := fetch_and_combine_eq env ep base mpd (combined_path dir name)
    (video_path dir name) (audio_path dir name) fs m video audio vreps arep vrep
    hm hsel hrep hvf haf (Ne.symm (video_ne_audio dir name)) hfv hfa
  have hc2 : combined_path dir name ∉
      (FS.mk (audio_path dir name :: video_path dir name :: fs.files)).files := by
    simp only [List.mem_cons]
    rintro (h1 | h2 | h3)
    · exact combined_ne_audio dir name h1
    · exact combined_ne_video dir name h2
    · exact hg h3
  constructor
  · intro hmiss
    have hdc := decrypt_combine_video_key_missing env ep video audio
      (combined_path dir name) ⟨audio_path dir name :: video_path dir name :: fs.files⟩
      [Event.fetchMPD (urljoin [base, ep.id, mpd]), Event.selectStreams,
       Event.fetchFile (urljoin [base, ep.id, vrep.base_url]),
       Event.fetchFile (urljoin [base, ep.id, arep.base_url])]
      vp ap vps aps vkid akid hc2 hvp hap hvk hak hmiss
    have herr : (fetch_and_combine env ep base mpd (combined_path dir name)
        (video_path dir name) (audio_path dir name) fs).err =
        some (.keyNotFound (normalize_kid vkid)) := by
      rw [hfac, hdc]
    have hde := download_episode_err env ep base mpd dir name fs _ hg herr
    rw [hde, hfac, hdc]
    exact ⟨rfl, hc2⟩
  · intro kv hkv hmiss
    have hdc := decrypt_combine_audio_key_missing env ep video audio
      (combined_path dir name) ⟨audio_path dir name :: video_path dir name :: fs.files⟩
      [Event.fetchMPD (urljoin [base, ep.id, mpd]), Event.selectStreams,
       Event.fetchFile (urljoin [base, ep.id, vrep.base_url]),
       Event.fetchFile (urljoin [base, ep.id, arep.base_url])]
      vp ap vps aps vkid akid kv hc2 hvp hap hvk hak hkv hmiss
    have herr : (fetch_and_combine env ep base mpd (combined_path dir name)
        (video_path dir name) (audio_path dir name) fs).err =
        some (.keyNotFound (normalize_kid akid)) := by
      rw [hfac, hdc]
    have hde := download_episode_err env ep base mpd dir name fs _ hg herr
    rw [hde, hfac, hdc]
    exact ⟨rfl, hc2⟩

/-- C7 witness: the failure with the normalized id at a concrete run. -/
theorem c7_witness :
    (download_episode c7_env c7_episode "http://h" "m.mpd" "d" "e" ⟨[]⟩).err =
      some (.keyNotFound (normalize_kid "kid-v")) :=
  ((c7_key_not_found c7_env c7_episode "http://h" "m.mpd" "d" "e" ⟨[]⟩ c7_manifest
    ⟨.video, some 1920, some 1080, none, [sampleProt "kid-v"], .list [vRep 100 "v.mp4"]⟩
    ⟨.audio, none, none, none, [sampleProt "kid-a"], .single (aRep "a.mp4")⟩
    [vRep 100 "v.mp4"] (aRep "a.mp4") (vRep 100 "v.mp4")
    (sampleProt "kid-v") (sampleProt "kid-a") [] []
    "kid-v" "kid-a" (by decide) (by decide) (by decide) rfl rfl rfl rfl rfl rfl rfl
    rfl rfl).1 (by decide)).1

lemma fetch_file_congr (env env2 : Env) (hfetch : env2.fetchOk = env.fetchOk)
    (u fn : String) (fs : FS) : fetch_file env2 u fn fs = fetch_file env u fn fs := by
  unfold fetch_file
  rw [hfetch]

lemma decrypt_combine_congr (env env2 : Env) (hmux : env2.mux = env.mux)
    (ep : Episode) (v a : AdaptationSet) (c : String) (fs : FS) (tr : List Event) :
    decrypt_combine env2 ep v a c fs tr = decrypt_combine env ep v a c fs tr := by
  unfold decrypt_combine
  rw [hmux]

lemma fetch_and_combine_congr (env env2 : Env) (hmpd : env2.mpd = env.mpd)
    (hfetch : env2.fetchOk = env.fetchOk) (hmux : env2.mux = env.mux)
    (ep : Episode) (base mpd c vf af : String) (fs : FS) :
    fetch_and_combine env2 ep base mpd c vf af fs =
      fetch_and_combine env ep base mpd c vf af fs := by
  unfold fetch_and_combine
  rw [hmpd]
  simp only [fetch_file_congr env env2 hfetch, decrypt_combine_congr env env2 hmux]

/-- The raised error of an episode run does not depend on the removal oracle:
removal failures during cleanup are swallowed. -/
lemma download_episode_err_congr (env env2 : Env) (hmpd : env2.mpd = env.mpd)
    (hfetch : env2.fetchOk = env.fetchOk) (hmux : env2.mux = env.mux)
    (ep : Episode) (base mpd dir name : String) (fs : FS) :
    (download_episode env2 ep base mpd dir name fs).err =
      (download_episode env ep base mpd dir name fs).err := by
  simp only [download_episode, fetch_and_combine_congr env env2 hmpd hfetch hmux]
  split <;> rfl

/-- C8: whenever an episode completes without error, whether its pipeline ran
or was skipped by the outer gate, the trace ends with removal attempts for
the two ephemeral encrypted files, and the run outcome is unchanged under any
behavior of the removal oracle, so removal failures never escalate. -/
theorem c8_cleanup_always_swallowed (env env2 : Env) (ep : Episode)
    (base mpd dir name : String) (fs : FS)
    (hmpd : env2.mpd = env.mpd) (hfetch : env2.fetchOk = env.fetchOk)
    (hmux : env2.mux = env.mux)
    (he : (download_episode env ep base mpd dir name fs).err = none) :
    (download_episode env ep base mpd dir name fs).trace.drop
        ((download_episode env ep base mpd dir name fs).trace.length - 2) =
      [Event.removeAttempt (video_path dir name),
       Event.removeAttempt (audio_path dir name)] ∧
    (download_episode env2 ep base mpd dir name fs).err = none := by
  constructor
  · by_cases hg : combined_path dir name ∈ fs.files
    · rw [download_episode_skip env ep base mpd dir name fs hg]
      rfl
    · have hfe := fac_err_of_ok env ep base mpd dir name fs hg he
      rw [download_episode_ok env ep base mpd dir name fs hg hfe]
      show ((fetch_and_combine env ep base mpd (combined_path dir name)
          (video_path dir name) (audio_path dir name) fs).trace ++
          [Event.removeAttempt (video_path dir name),
           Event.removeAttempt (audio_path dir name)]).drop _ = _
      rw [List.length_append]
      have hlen : (fetch_and_combine env ep base mpd (combined_path dir name)
          (video_path dir name) (audio_path dir name) fs).trace.length + 2 - 2 =
          (fetch_and_combine env ep base mpd (combined_path dir name)
            (video_path dir name) (audio_path dir name) fs).trace.length := by
        omega
      rw [show ([Event.removeAttempt (video_path dir name),
          Event.removeAttempt (audio_path dir name)] : List Event).length = 2 from rfl] at *
      rw [hlen]
      exact List.drop_left _ _
  · rw [download_episode_err_congr env env2 hmpd hfetch hmux]
    exact he

/-- C8 witness: a skipped episode still attempts both removals at the end of
its trace. -/
theorem c8_witness :
    (download_episode c8_env c8_episode "b" "m" "d" "e" ⟨["d/e.mp4"]⟩).trace.drop
        ((download_episode c8_env c8_episode "b" "m" "d" "e" ⟨["d/e.mp4"]⟩).trace.length - 2) =
      [Event.removeAttempt (video_path "d" "e"),
       Event.removeAttempt (audio_path "d" "e")] :=
  (c8_cleanup_always_swallowed c8_env c8_env c8_episode "b" "m" "d" "e" ⟨["d/e.mp4"]⟩
    rfl rfl rfl (by rfl)).1

lemma fetch_file_notMkdir (env : Env) (u fn : String) (fs : FS) :
    (fetch_file env u fn fs).trace.all notMkdirEv = true := by
  unfold fetch_file
  repeat' split
  all_goals rfl

lemma decrypt_combine_notMkdir (env : Env) (ep : Episode) (v a : AdaptationSet)
    (c : String) (fs : FS) (tr : List Event)
    (h : tr.all notMkdirEv = true) :
    (decrypt_combine env ep v a c fs tr).trace.all notMkdirEv = true := by
  simp only [decrypt_combine]
  repeat' split
  all_goals simp_all [List.all_append, notMkdirEv]

lemma fetch_and_combine_notMkdir (env : Env) (ep : Episode)
    (base mpd c vf af : String) (fs : FS) :
    (fetch_and_combine env ep base mpd c vf af fs).trace.all notMkdirEv = true := by
  simp only [fetch_and_combine]
  repeat' split
  all_goals first
    | rfl
    | exact decrypt_combine_notMkdir _ _ _ _ _ _ _
        (by simp [List.all_append, List.all_cons, fetch_file_notMkdir, notMkdirEv])
    | simp [List.all_append, fetch_file_notMkdir, notMkdirEv]

lemma download_episode_notMkdir (env : Env) (ep : Episode)
    (base mpd dir name : String) (fs : FS) :
    (download_episode env ep base mpd dir name fs).trace.all notMkdirEv = true := by
  simp only [download_episode]
  by_cases hg : combined_path dir name ∈ fs.files
  · rw [if_pos hg]
    simp [try_remove_trace, notMkdirEv]
  · rw [if_neg hg]
    split
    · exact fetch_and_combine_notMkdir _ _ _ _ _ _ _ _
    · simp [List.all_append, try_remove_trace, notMkdirEv, fetch_and_combine_notMkdir]

lemma run_episodes_notMkdir (env : Env) (src : Source) (dir : String) :
    ∀ (eps : List (String × Episode)) (fs : FS),
      (run_episodes env src dir eps fs).trace.all notMkdirEv = true := by
  intro eps
  induction eps with
  | nil => intro fs; rfl
  | cons q rest ih =>
    intro fs
    obtain ⟨en, ep⟩ := q
    simp only [run_episodes]
    split
    · exact download_episode_notMkdir _ _ _ _ _ _ _
    · simp [List.all_append, download_episode_notMkdir, ih]

lemma run_chapters_makedir (env : Env) (src : Source) :
    ∀ (chs : List (String × Chapter)) (fs : FS) (d : String),
      Event.makeDir d ∈ (run_chapters env src chs fs).trace →
      ∃ p ∈ chs, d = sanitize p.1 := by
  intro chs
  induction chs with
  | nil =>
    intro fs d hmem
    simp [run_chapters] at hmem
  | cons q rest ih =>
    intro fs d hmem
    obtain ⟨cn, ch⟩ := q
    have hnot : ∀ fs2 : FS, Event.makeDir d ∈ (run_episodes env src (sanitize cn)
        ch.episodes fs2).trace → False := by
      intro fs2 hin
      have hall := run_episodes_notMkdir env src (sanitize cn) ch.episodes fs2
      have := List.all_eq_true.mp hall _ hin
      simp [notMkdirEv] at this
    simp only [run_chapters] at hmem
    cases hsplit : (run_episodes env src (sanitize cn) ch.episodes fs).err with
    | some e =>
      rw [hsplit] at hmem
      simp only [List.mem_cons] at hmem
      rcases hmem with h1 | h2
      · exact ⟨(cn, ch), by simp, Event.makeDir.inj h1⟩
      · exact absurd h2 (fun hx => hnot fs hx)
    | none =>
      rw [hsplit] at hmem
      simp only [List.cons_append, List.mem_cons, List.mem_append] at hmem
      rcases hmem with h1 | h2 | h3
      · exact ⟨(cn, ch), by simp, Event.makeDir.inj h1⟩
      · exact absurd h2 (fun hx => hnot fs hx)
      · obtain ⟨p, hp, hd⟩ := ih _ d h3
        exact ⟨p, List.mem_cons_of_mem _ hp, hd⟩

/-- C9: names are made single-level path components before use: the sanitized
form of any name contains no slash; the sample name with a slash becomes a
single dash-joined component; and every directory-creation event of a
playlist run is the sanitized form of a declared chapter name. -/
theorem c9_sanitized_names (s : String) :
    (∀ c ∈ (sanitize s).data, c ≠ '/') ∧
    sanitize "S1/Extra" = "S1-Extra" ∧
    ∀ (env : Env) (src : Source) (chs : List (String × Chapter)) (fs : FS) (d : String),
      Event.makeDir d ∈ (run_chapters env src chs fs).trace →
      ∃ p ∈ chs, d = sanitize p.1 := by
  refine ⟨?_, by decide, ?_⟩
  · intro c hc
    have hc2 : c ∈ s.data.map (fun c0 => if c0 = '/' then '-' else c0) := hc
    obtain ⟨c0, hc0, heq⟩ := List.mem_map.mp hc2
    by_cases h0 : c0 = '/'
    · rw [h0] at heq
      simp at heq
      rw [← heq]
      decide
    · rw [if_neg h0] at heq
      rw [← heq]
      exact h0
  · intro env src chs fs d hmem
    exact run_chapters_makedir env src chs fs d hmem

/-- C9 witness: the sample sanitization fact through the theorem. -/
theorem c9_witness : sanitize "S1/Extra" = "S1-Extra" :=
  (c9_sanitized_names "S1/Extra").2.1

/-- An existing file distinct from every ephemeral path of the episodes in a
chapter survives the chapter's episode loop. -/
lemma run_episodes_mem (env : Env) (src : Source) (dir : String) :
    ∀ (eps : List (String × Episode)) (fs : FS) (f : String),
      f ∈ fs.files →
      (∀ q ∈ eps, f ≠ video_path dir (sanitize q.1) ∧ f ≠ audio_path dir (sanitize q.1)) →
      f ∈ (run_episodes env src dir eps fs).fs.files := by
  intro eps
  induction eps with
  | nil =>
    intro fs f hf hne
    exact hf
  | cons q rest ih =>
    intro fs f hf hne
    obtain ⟨en, ep⟩ := q
    simp only [run_episodes]
    have h1 := download_episode_mem env ep src.base src.mpd dir (sanitize en) fs f hf
      (hne (en, ep) (by simp)).1 (hne (en, ep) (by simp)).2
    split
    · exact h1
    · exact ih _ f h1 (fun q2 hq2 => hne q2 (List.mem_cons_of_mem _ hq2))

/-- After a successful chapter-episode loop, every episode's combined output
exists, provided no combined path collides with an ephemeral path. -/
lemma run_episodes_combined (env : Env) (src : Source) (dir : String) :
    ∀ (eps : List (String × Episode)) (fs : FS),
      (∀ q1 ∈ eps, ∀ q2 ∈ eps,
        combined_path dir (sanitize q1.1) ≠ video_path dir (sanitize q2.1) ∧
        combined_path dir (sanitize q1.1) ≠ audio_path dir (sanitize q2.1)) →
      (run_episodes env src dir eps fs).err = none →
      ∀ q ∈ eps, combined_path dir (sanitize q.1) ∈
        (run_episodes env src dir eps fs).fs.files := by
  intro eps
  induction eps with
  | nil =>
    intro fs hH he q hq
    exact absurd hq (by simp)
  | cons q0 rest ih =>
    intro fs hH he q hq
    obtain ⟨en, ep⟩ := q0
    simp only [run_episodes] at he ⊢
    cases hre : (download_episode env ep src.base src.mpd dir (sanitize en) fs).err with
    | some e =>
      rw [hre] at he
      simp at he
    | none =>
      rw [hre] at he
      rcases List.mem_cons.mp hq with h1 | h2
      · subst h1
        have hcomb := download_episode_combined env ep src.base src.mpd dir (sanitize en) fs hre
        exact run_episodes_mem env src dir rest _ _ hcomb
          (fun q2 hq2 => hH (en, ep) (by simp) q2 (List.mem_cons_of_mem _ hq2))
      · exact ih _ (fun q1 hq1 q2 hq2 =>
          hH q1 (List.mem_cons_of_mem _ hq1) q2 (List.mem_cons_of_mem _ hq2)) he q h2

/-- Second-run chapter-episode loop: when every combined output already
exists and no collisions are possible, every episode is skipped, the loop
succeeds, and the trace carries no network or mux event. -/
lemma run_episodes_skip (env : Env) (src : Source) (dir : String) :
    ∀ (eps : List (String × Episode)) (fs : FS),
      (∀ q ∈ eps, combined_path dir (sanitize q.1) ∈ fs.files) →
      (∀ q1 ∈ eps, ∀ q2 ∈ eps,
        combined_path dir (sanitize q1.1) ≠ video_path dir (sanitize q2.1) ∧
        combined_path dir (sanitize q1.1) ≠ audio_path dir (sanitize q2.1)) →
      (run_episodes env src dir eps fs).err = none ∧
      (∀ e ∈ (run_episodes env src dir eps fs).trace, is_io_event e = false) := by
  intro eps
  induction eps with
  | nil =>
    intro fs hall hH
    exact ⟨rfl, by simp [run_episodes]⟩
  | cons q0 rest ih =>
    intro fs hall hH
    obtain ⟨en, ep⟩ := q0
    have hskip := download_episode_skip env ep src.base src.mpd dir (sanitize en) fs
      (hall (en, ep) (by simp))
    have hall2 : ∀ q ∈ rest, combined_path dir (sanitize q.1) ∈
        ((try_remove env (audio_path dir (sanitize en))
          (try_remove env (video_path dir (sanitize en)) fs).1).1 : FS).files := by
      intro q hq
      have h1 := hall q (List.mem_cons_of_mem _ hq)
      have hne := hH q (List.mem_cons_of_mem _ hq) (en, ep) (by simp)
      exact mem_try_remove _ _ _ _ (mem_try_remove _ _ _ _ h1 hne.1) hne.2
    obtain ⟨iherr, ihtr⟩ := ih _ hall2
      (fun q1 hq1 q2 hq2 => hH q1 (List.mem_cons_of_mem _ hq1) q2 (List.mem_cons_of_mem _ hq2))
    simp only [run_episodes, hskip]
    constructor
    · exact iherr
    · intro e he
      simp only [List.cons_append, List.nil_append, List.mem_cons, List.mem_append] at he
      rcases he with h1 | h2 | h3
      · rw [h1]; rfl
      · rw [h2]; rfl
      · exact ihtr e h3

lemma mem_chapter_paths (dir : String) (eps : List (String × Episode)) (q : String × Episode)
    (hq : q ∈ eps) : (dir, sanitize q.1) ∈ chapter_paths dir eps := by
  simp only [chapter_paths, List.mem_map]
  exact ⟨q, hq, rfl⟩

lemma mem_playlist_paths_left (cn : String) (ch : Chapter) (rest : List (String × Chapter))
    (p : String × String) (hp : p ∈ chapter_paths (sanitize cn) ch.episodes) :
    p ∈ playlist_paths ((cn, ch) :: rest) := by
  simp only [playlist_paths, List.mem_append]
  exact Or.inl hp

lemma mem_playlist_paths_right (cn : String) (ch : Chapter) (rest : List (String × Chapter))
    (p : String × String) (hp : p ∈ playlist_paths rest) :
    p ∈ playlist_paths ((cn, ch) :: rest) := by
  simp only [playlist_paths, List.mem_append]
  exact Or.inr hp

/-- An existing file distinct from every ephemeral path of the playlist
survives the whole chapter loop. -/
lemma run_chapters_mem (env : Env) (src : Source) :
    ∀ (chs : List (String × Chapter)) (fs : FS) (f : String),
      f ∈ fs.files →
      (∀ p ∈ playlist_paths chs, f ≠ video_path p.1 p.2 ∧ f ≠ audio_path p.1 p.2) →
      f ∈ (run_chapters env src chs fs).fs.files := by
  intro chs
  induction chs with
  | nil =>
    intro fs f hf hne
    exact hf
  | cons q rest ih =>
    intro fs f hf hne
    obtain ⟨cn, ch⟩ := q
    simp only [run_chapters]
    have h1 := run_episodes_mem env src (sanitize cn) ch.episodes fs f hf
      (fun q2 hq2 => hne (sanitize cn, sanitize q2.1)
        (mem_playlist_paths_left cn ch rest _ (mem_chapter_paths _ _ _ hq2)))
    split
    · exact h1
    · exact ih _ f h1
        (fun p hp => hne p (mem_playlist_paths_right cn ch rest p hp))

/-- After a successful playlist run, every episode's combined output exists,
provided no combined path collides with an ephemeral path. -/
lemma run_chapters_combined (env : Env) (src : Source) :
    ∀ (chs : List (String × Chapter)) (fs : FS),
      no_collisions (playlist_paths chs) →
      (run_chapters env src chs fs).err = none →
      ∀ p ∈ playlist_paths chs,
        combined_path p.1 p.2 ∈ (run_chapters env src chs fs).fs.files := by
  intro chs
  induction chs with
  | nil =>
    intro fs hH he p hp
    exact absurd hp (by simp [playlist_paths])
  | cons q rest ih =>
    intro fs hH he p hp
    obtain ⟨cn, ch⟩ := q
    simp only [run_chapters] at he ⊢
    cases hre : (run_episodes env src (sanitize cn) ch.episodes fs).err with
    | some e =>
      rw [hre] at he
      simp at he
    | none =>
      rw [hre] at he
      rcases List.mem_append.mp (by simpa [playlist_paths] using hp) with h1 | h2
      · have hcomb := run_episodes_combined env src (sanitize cn) ch.episodes fs
          (fun q1 hq1 q2 hq2 =>
            hH (sanitize cn, sanitize q1.1)
              (mem_playlist_paths_left cn ch rest _ (mem_chapter_paths _ _ _ hq1))
              (sanitize cn, sanitize q2.1)
              (mem_playlist_paths_left cn ch rest _ (mem_chapter_paths _ _ _ hq2)))
          hre
        obtain ⟨q1, hq1, hpq⟩ := by
          simpa [chapter_paths, List.mem_map] using h1
        obtain ⟨x, hx⟩ := hq1
        have hc1 : combined_path p.1 p.2 ∈
            (run_episodes env src (sanitize cn) ch.episodes fs).fs.files := by
          rw [← hpq]
          exact hcomb (q1, x) hx
        exact run_chapters_mem env src rest _ _ hc1
          (fun p2 hp2 =>
            hH p (mem_playlist_paths_left cn ch rest _ h1) p2
              (mem_playlist_paths_right cn ch rest _ hp2))
      · exact ih _ (fun p1 hp1 p2 hp2 =>
            hH p1 (mem_playlist_paths_right cn ch rest _ hp1) p2
              (mem_playlist_paths_right cn ch rest _ hp2)) he p h2

/-- Second-run chapter loop: with every combined output in place and no
collisions, the run succeeds and performs no network or mux work. -/
lemma run_chapters_skip (env : Env) (src : Source) :
    ∀ (chs : List (String × Chapter)) (fs : FS),
      (∀ p ∈ playlist_paths chs, combined_path p.1 p.2 ∈ fs.files) →
      no_collisions (playlist_paths chs) →
      (run_chapters env src chs fs).err = none ∧
      (∀ e ∈ (run_chapters env src chs fs).trace, is_io_event e = false) := by
  intro chs
  induction chs with
  | nil =>
    intro fs hall hH
    exact ⟨rfl, by simp [run_chapters]⟩
  | cons q rest ih =>
    intro fs hall hH
    obtain ⟨cn, ch⟩ := q
    have hallc : ∀ q2 ∈ ch.episodes,
        combined_path (sanitize cn) (sanitize q2.1) ∈ fs.files := by
      intro q2 hq2
      exact hall _ (mem_playlist_paths_left cn ch rest _ (mem_chapter_paths _ _ _ hq2))
    have hHc : ∀ q1 ∈ ch.episodes, ∀ q2 ∈ ch.episodes,
        combined_path (sanitize cn) (sanitize q1.1) ≠
          video_path (sanitize cn) (sanitize q2.1) ∧
        combined_path (sanitize cn) (sanitize q1.1) ≠
          audio_path (sanitize cn) (sanitize q2.1) := by
      intro q1 hq1 q2 hq2
      exact hH _ (mem_playlist_paths_left cn ch rest _ (mem_chapter_paths _ _ _ hq1))
        _ (mem_playlist_paths_left cn ch rest _ (mem_chapter_paths _ _ _ hq2))
    obtain ⟨herr, htr⟩ := run_episodes_skip env src (sanitize cn) ch.episodes fs hallc hHc
    have hall2 : ∀ p ∈ playlist_paths rest, combined_path p.1 p.2 ∈
        (run_episodes env src (sanitize cn) ch.episodes fs).fs.files := by
      intro p hp
      exact run_episodes_mem env src (sanitize cn) ch.episodes fs _
        (hall p (mem_playlist_paths_right cn ch rest _ hp))
        (fun q2 hq2 =>
          hH p (mem_playlist_paths_right cn ch rest _ hp)
            (sanitize cn, sanitize q2.1)
            (mem_playlist_paths_left cn ch rest _ (mem_chapter_paths _ _ _ hq2)))
    obtain ⟨iherr, ihtr⟩ := ih _ hall2
      (fun p1 hp1 p2 hp2 =>
        hH p1 (mem_playlist_paths_right cn ch rest _ hp1)
          p2 (mem_playlist_paths_right cn ch rest _ hp2))
    simp only [run_chapters]
    rw [herr]
    constructor
    · exact iherr
    · intro e he
      simp only [List.cons_append, List.mem_cons, List.mem_append] at he
      rcases he with h1 | h2 | h3
      · rw [h1]
        rfl
      · exact htr e h2
      · exact ihtr e h3

/-- C4 counterexample: a playlist whose first run completes without error but
whose immediately following second run performs network fetches, because the
second episode's cleanup deleted the first episode's combined output. -/
theorem c4_counterexample :
    (download_playlist c4_env c4_playlist ⟨[]⟩).err = none ∧
    ((download_playlist c4_env c4_playlist
        (download_playlist c4_env c4_playlist ⟨[]⟩).fs).trace.any is_io_event) = true :=
  ⟨rfl, rfl⟩

/-- C4 amended: whenever no episode's combined output path coincides with any
episode's ephemeral video or audio path, a successful run is idempotent: the
immediately following second run succeeds and performs zero network fetches
and zero decrypt/mux invocations. -/
theorem c4_amended_idempotent (env : Env) (playlist : Playlist) (fs : FS)
    (hH : no_collisions (playlist_paths playlist.chapters))
    (he : (download_playlist env playlist fs).err = none) :
    (download_playlist env playlist (download_playlist env playlist fs).fs).err = none ∧
    ∀ e ∈ (download_playlist env playlist (download_playlist env playlist fs).fs).trace,
      is_io_event e = false := by
  have hall := run_chapters_combined env playlist.source playlist.chapters fs hH he
  exact run_chapters_skip env playlist.source playlist.chapters
    (download_playlist env playlist fs).fs hall hH

/-- C4 witness: the amended idempotence at a collision-free playlist. -/
theorem c4_amended_witness :
    (download_playlist c4_env c4w_playlist
      (download_playlist c4_env c4w_playlist ⟨[]⟩).fs).err = none :=
  (c4_amended_idempotent c4_env c4w_playlist ⟨[]⟩ (by unfold no_collisions; decide) (by rfl)).1

end Rip
